import Mathlib

/-!
# Verification of the dicomweb batch-processing core

Shallow embedding of the dicomweb repository's core logic:

* `generatePseudonym` and its `btoa`-based digest (src/unnamed/part_000,
  `generatePseudonym`, `processDicomFile`);
* the mock metadata extraction `processDicomFile` / `mockMetadata`;
* the report aggregation `generateSummary` and the CSV serializer
  `generateCSVReport` (src/unnamed/part_000, report generator half);
* the batch job orchestrator `startJob` / `pauseJob`
  (src/components/metadata-display.tsx, `BatchProcessingDashboard`).

JavaScript numbers only occur here as small non-negative integers
(progress percentages, counts, tick counters), so they are embedded as
`Nat`; `Math.round((c / t) * 100)` is embedded as the exact rational
rounding `(200 * c + t) / (2 * t)` in `Nat` division (all values that
occur are far below any floating-point precision boundary).  Strings are
ASCII throughout, so `btoa`'s Latin-1 byte view of a string is
`String.data` mapped through `Char.toNat`.
-/

namespace Dicomweb

/-! ## Base64 digest and pseudonymization (src/unnamed/part_000, lines 125-130)

The source computes `btoa(value + actualSalt).slice(0, 12)`.  `btoa`
base64-encodes the code units of the string (all inputs here are ASCII).
-/

/-- The standard base64 alphabet used by `btoa`. -/
def b64Alphabet : List Char :=
  ['A', 'B', 'C', 'D', 'E', 'F', 'G', 'H', 'I', 'J', 'K', 'L', 'M',
   'N', 'O', 'P', 'Q', 'R', 'S', 'T', 'U', 'V', 'W', 'X', 'Y', 'Z',
   'a', 'b', 'c', 'd', 'e', 'f', 'g', 'h', 'i', 'j', 'k', 'l', 'm',
   'n', 'o', 'p', 'q', 'r', 's', 't', 'u', 'v', 'w', 'x', 'y', 'z',
   '0', '1', '2', '3', '4', '5', '6', '7', '8', '9', '+', '/']

/-- The base64 digit for a 6-bit value. -/
def b64Char (n : Nat) : Char := b64Alphabet.getD n 'A'

/-- Base64 encoding of a byte sequence, as performed by `btoa`:
three input bytes become four output characters, with `=` padding for a
final group of one or two bytes. -/
def base64Encode : List Nat → List Char
  | [] => []
  | [b1] =>
      [b64Char (b1 / 4), b64Char (b1 % 4 * 16), '=', '=']
  | [b1, b2] =>
      [b64Char (b1 / 4), b64Char (b1 % 4 * 16 + b2 / 16),
       b64Char (b2 % 16 * 4), '=']
  | b1 :: b2 :: b3 :: rest =>
      b64Char (b1 / 4) :: b64Char (b1 % 4 * 16 + b2 / 16) ::
      b64Char (b2 % 16 * 4 + b3 / 64) :: b64Char (b3 % 64) ::
      base64Encode rest

/-- The Latin-1 byte view of an (ASCII) string, as `btoa` sees it. -/
def strBytes (s : String) : List Nat := s.data.map Char.toNat

/-- `salt || "default_salt"`: JavaScript `||` takes the right operand when
the left is absent (`undefined`) or the empty string (both falsy). -/
def actualSaltOf : Option String → String
  | none => "default_salt"
  | some s => if s = "" then "default_salt" else s

/-- `generatePseudonym` (src/unnamed/part_000, lines 125-130):
`"anon_" + btoa(value + actualSalt).slice(0, 12)`. -/
def generatePseudonym (value : String) (salt : Option String) : String :=
  let actualSalt := actualSaltOf salt
  let hash := String.mk ((base64Encode (strBytes (value ++ actualSalt))).take 12)
  "anon_" ++ hash

/-! ## Data model (src/unnamed/part_000, lines 2-61) -/

/-- `anonymize_mode` of `ProcessingOptions`. -/
inductive AnonymizeMode
  | pseudonymize
  | remove
  deriving DecidableEq

/-- A private DICOM tag (`PrivateTag`, lines 36-44). -/
structure PrivateTag where
  tag : String
  group : String
  element : String
  keyword : String
  name : String
  creator : String
  value_preview : String
  deriving DecidableEq

/-- `ProcessingOptions` (lines 46-53). -/
structure ProcessingOptions where
  anonymize : Bool
  anonymize_mode : AnonymizeMode
  anonymize_tags : Option (List String) := none
  anonymize_salt : Option String := none
  remove_private_tags : Bool
  output_formats : List String
  deriving DecidableEq

/-- `DicomMetadata` (lines 2-34). -/
structure DicomMetadata where
  patient_id : String
  patient_name : String
  patient_age : String
  patient_sex : String
  modality : String
  body_part_examined : String
  study_description : String
  study_date_time : String
  phi_removed : String
  manufacturer : String
  model : String
  software_versions : String
  magnetic_field_strength : String
  slice_thickness : String
  pixel_spacing : String
  rows : String
  columns : String
  photometric_interpretation : String
  study_instance_uid : String
  series_instance_uid : String
  transfer_syntax_uid : String
  number_of_frames : Option Nat := none
  phi_flags : List String
  urgent : Bool
  urgent_reasons : List String
  private_tags : List PrivateTag
  deriving DecidableEq

/-- `ProcessingResult` (lines 55-61). -/
structure ProcessingResult where
  success : Bool
  metadata : Option DicomMetadata := none
  error : Option String := none
  file_path : String
  processing_time : Nat
  deriving DecidableEq

/-! ## Mock extraction (src/unnamed/part_000, lines 63-159) -/

/-- Does `hay` start with `needle`?  Helper for
`String.prototype.includes`. -/
def leadsWith : List Char → List Char → Bool
  | [], _ => true
  | _ :: _, [] => false
  | a :: as, b :: bs => a == b && leadsWith as bs

/-- Does `hay` contain `needle` as a contiguous substring
(`String.prototype.includes`)? -/
def containsSub (hay needle : List Char) : Bool :=
  leadsWith needle hay ||
    match hay with
    | [] => false
    | _ :: t => containsSub t needle

/-- `a.includes(b)` on strings. -/
def strIncludes (hay needle : String) : Bool :=
  containsSub hay.data needle.data

/-- `s.toLowerCase()` (ASCII inputs only). -/
def strToLower (s : String) : String := String.mk (s.data.map Char.toLower)

/-- `getModalityFromFileName` (lines 132-139). -/
def getModalityFromFileName (fileName : String) : String :=
  let name := strToLower fileName
  if strIncludes name "ct" then "CT"
  else if strIncludes name "mr" || strIncludes name "mri" then "MR"
  else if strIncludes name "us" then "US"
  else if strIncludes name "xr" || strIncludes name "dx" then "DX"
  else "CT"

/-- `getBodyPartFromFileName` (lines 141-147). -/
def getBodyPartFromFileName (fileName : String) : String :=
  let name := strToLower fileName
  if strIncludes name "head" || strIncludes name "brain" then "HEAD"
  else if strIncludes name "chest" || strIncludes name "thorax" then "CHEST"
  else if strIncludes name "abdomen" || strIncludes name "pelvis" then "ABDOMEN"
  else "CHEST"

/-- The keyword list of `checkUrgency` (line 154). -/
def urgentKeywords : List String :=
  ["trauma", "stroke", "emergency", "stat", "urgent"]

/-- `checkUrgency` (lines 153-159). -/
def checkUrgency (modality description : String) : Bool :=
  (urgentKeywords.any fun keyword => strIncludes (strToLower description) keyword) ||
    (modality == "CT" && strIncludes (strToLower description) "head")

/-- Environment values produced by the impure parts of the extraction:
`new Date().toISOString()` and the two `generateUID()` calls (the latter
use `Date.now()` and `Math.random()`). -/
structure ExtractEnv where
  nowIso : String
  uid1 : String
  uid2 : String

/-- The `mockMetadata` record built by `processDicomFile`
(src/unnamed/part_000, lines 76-106). -/
def mockMetadata (fileName : String) (options : ProcessingOptions)
    (env : ExtractEnv) : DicomMetadata where
  patient_id :=
    if options.anonymize then generatePseudonym "PATIENT_001" options.anonymize_salt
    else "PATIENT_001"
  patient_name :=
    if options.anonymize then generatePseudonym "John Doe" options.anonymize_salt
    else "John Doe"
  patient_age := "45Y"
  patient_sex := "M"
  modality := getModalityFromFileName fileName
  body_part_examined := getBodyPartFromFileName fileName
  study_description := "Routine examination"
  study_date_time := env.nowIso
  phi_removed := if options.anonymize then "YES" else "NO"
  manufacturer := "SIEMENS"
  model := "SOMATOM Definition AS"
  software_versions := "syngo CT 2012B"
  magnetic_field_strength := "N/A"
  slice_thickness := "5.0"
  pixel_spacing := "[0.976562, 0.976562]"
  rows := "512"
  columns := "512"
  photometric_interpretation := "MONOCHROME2"
  study_instance_uid := env.uid1
  series_instance_uid := env.uid2
  transfer_syntax_uid := "1.2.840.10008.1.2.1"
  phi_flags := if options.anonymize then [] else ["PatientName", "PatientID"]
  urgent := checkUrgency (getModalityFromFileName fileName) "Routine examination"
  urgent_reasons :=
    if checkUrgency (getModalityFromFileName fileName) "Routine examination"
    then ["Routine screening"] else []
  private_tags := []

/-- The success branch of `processDicomFile` (lines 64-122); the `catch`
branch is unreachable in this embedding since the `try` body performs no
failing operation on its own.  `processing_time` is the impure
`Date.now() - startTime`, supplied as a parameter. -/
def processDicomFile (fileName : String) (options : ProcessingOptions)
    (env : ExtractEnv) (ptime : Nat) : ProcessingResult where
  success := true
  metadata := some (mockMetadata fileName options env)
  error := none
  file_path := fileName
  processing_time := ptime

/-! ## Report aggregation (src/unnamed/part_000, report half, lines 182-323) -/

/-- `ProcessedFileData.status`: `"success" | "error"`. -/
inductive POutcome
  | success
  | error
  deriving DecidableEq

/-- `ProcessedFileData` (report half, lines 190-197).  The `metadata`
field is non-optional in the source interface. -/
structure ProcessedFileData where
  fileName : String
  fileSize : Nat
  metadata : DicomMetadata
  processingTime : Nat
  status : POutcome
  error : Option String := none
  deriving DecidableEq

/-- `ReportSummary` (report half, lines 199-210).  The JavaScript
`Record<string, number>` frequency maps are embedded as association
lists in insertion order; object keys are unique, which the embedding
realizes by only appending a key that is not yet present. -/
structure ReportSummary where
  totalFiles : Nat
  successfulFiles : Nat
  failedFiles : Nat
  totalProcessingTime : Nat
  urgentStudies : Nat
  phiDetected : Nat
  anonymizedFiles : Nat
  modalities : List (String × Nat)
  bodyParts : List (String × Nat)
  manufacturers : List (String × Nat)
  deriving DecidableEq

/-- `m[k] = (m[k] || 0) + 1` on a JavaScript object: increment the entry
for `k`, creating it with value 1 when absent. -/
def bumpKey (m : List (String × Nat)) (k : String) : List (String × Nat) :=
  if m.any fun p => p.1 == k then
    m.map fun p => if p.1 == k then (p.1, p.2 + 1) else p
  else
    m ++ [(k, 1)]

/-- The mutable accumulator of `generateSummary`'s `forEach` loop
(report half, lines 281-309). -/
structure SummaryAcc where
  modalities : List (String × Nat)
  bodyParts : List (String × Nat)
  manufacturers : List (String × Nat)
  urgentStudies : Nat
  phiDetected : Nat
  anonymizedFiles : Nat

/-- One iteration of the `successfulFiles.forEach` loop. -/
def summaryStep (acc : SummaryAcc) (file : ProcessedFileData) : SummaryAcc where
  modalities := bumpKey acc.modalities file.metadata.modality
  bodyParts := bumpKey acc.bodyParts file.metadata.body_part_examined
  manufacturers := bumpKey acc.manufacturers file.metadata.manufacturer
  urgentStudies := if file.metadata.urgent then acc.urgentStudies + 1 else acc.urgentStudies
  phiDetected :=
    if file.metadata.phi_flags.length > 0 then acc.phiDetected + 1 else acc.phiDetected
  anonymizedFiles :=
    if file.metadata.phi_removed == "YES" then acc.anonymizedFiles + 1
    else acc.anonymizedFiles

/-- `generateSummary` (report half, lines 277-323). -/
def generateSummary (files : List ProcessedFileData) : ReportSummary :=
  let successfulFiles := files.filter fun f => f.status == .success
  let failedFiles := files.filter fun f => f.status == .error
  let acc := successfulFiles.foldl summaryStep ⟨[], [], [], 0, 0, 0⟩
  { totalFiles := files.length
    successfulFiles := successfulFiles.length
    failedFiles := failedFiles.length
    totalProcessingTime := files.foldl (fun sum f => sum + f.processingTime) 0
    urgentStudies := acc.urgentStudies
    phiDetected := acc.phiDetected
    anonymizedFiles := acc.anonymizedFiles
    modalities := acc.modalities
    bodyParts := acc.bodyParts
    manufacturers := acc.manufacturers }

/-- `ReportData` (report half, lines 182-188). -/
structure ReportData where
  files : List ProcessedFileData
  summary : ReportSummary
  processingOptions : ProcessingOptions
  generatedAt : String
  reportId : String

/-! ## CSV serialization (src/unnamed/part_000, report half, lines 619-662) -/

/-- `cell.replace(/"/g, '""')`: double every quote character. -/
def escChars : List Char → List Char
  | [] => []
  | c :: t => if c = '"' then '"' :: '"' :: escChars t else c :: escChars t

/-- One CSV cell: the escaped value wrapped in quotes. -/
def renderCell (cell : List Char) : List Char :=
  '"' :: escChars cell ++ ['"']

/-- `Array.prototype.join` with a one-character separator. -/
def joinSep (sep : Char) : List (List Char) → List Char
  | [] => []
  | [x] => x
  | x :: y :: t => x ++ sep :: joinSep sep (y :: t)

/-- One CSV line: quoted cells joined by commas. -/
def renderRow (cells : List (List Char)) : List Char :=
  joinSep ',' (cells.map renderCell)

/-- The full CSV text: lines joined by newlines. -/
def renderCSV (rows : List (List (List Char))) : List Char :=
  joinSep '\n' (rows.map renderRow)

/-- The header row of `generateCSVReport` (lines 623-640). -/
def csvHeaders : List String :=
  ["File Name", "Status", "Processing Time (ms)", "Patient ID", "Patient Name",
   "Age", "Sex", "Modality", "Body Part", "Study Description", "Study Date",
   "Manufacturer", "Model", "Urgent", "PHI Removed", "PHI Flags"]

/-- The data row for one file (lines 642-659): metadata cells are empty
for failed files. -/
def csvRow (file : ProcessedFileData) : List String :=
  [file.fileName,
   (match file.status with | .success => "success" | .error => "error"),
   toString file.processingTime,
   (if file.status == .success then file.metadata.patient_id else ""),
   (if file.status == .success then file.metadata.patient_name else ""),
   (if file.status == .success then file.metadata.patient_age else ""),
   (if file.status == .success then file.metadata.patient_sex else ""),
   (if file.status == .success then file.metadata.modality else ""),
   (if file.status == .success then file.metadata.body_part_examined else ""),
   (if file.status == .success then file.metadata.study_description else ""),
   (if file.status == .success then file.metadata.study_date_time else ""),
   (if file.status == .success then file.metadata.manufacturer else ""),
   (if file.status == .success then file.metadata.model else ""),
   (if file.status == .success then (if file.metadata.urgent then "YES" else "NO") else ""),
   (if file.status == .success then file.metadata.phi_removed else ""),
   (if file.status == .success then String.intercalate ";" file.metadata.phi_flags else "")]

/-- `generateCSVReport` (lines 619-662): header plus one row per file,
every cell quoted with embedded quotes doubled. -/
def generateCSVReport (data : ReportData) : String :=
  String.mk (renderCSV ((csvHeaders :: data.files.map csvRow).map fun row =>
    row.map String.data))

/-! ### A CSV reader, for the round-trip property

A single-pass automaton over the characters of a CSV text in which every
cell is quoted: `expectQuote` before a cell, `inCell` inside the quotes,
`afterQuote` directly after a quote inside a cell (either the escape
`""` continues the cell, or `,` / newline / end of input closes it). -/

/-- Reader mode; `stuck` marks malformed input. -/
inductive CsvMode
  | expectQuote
  | inCell
  | afterQuote
  | stuck
  deriving DecidableEq

/-- Reader state: current mode, characters of the current cell, cells of
the current row, and finished rows. -/
structure CsvState where
  mode : CsvMode
  cur : List Char
  row : List (List Char)
  rows : List (List (List Char))
  deriving DecidableEq

/-- One character of CSV input. -/
def csvStep (st : CsvState) (c : Char) : CsvState :=
  match st.mode with
  | .stuck => st
  | .expectQuote =>
      if c = '"' then { st with mode := .inCell }
      else { st with mode := .stuck }
  | .inCell =>
      if c = '"' then { st with mode := .afterQuote }
      else { st with cur := st.cur ++ [c] }
  | .afterQuote =>
      if c = '"' then { st with mode := .inCell, cur := st.cur ++ ['"'] }
      else if c = ',' then
        { mode := .expectQuote, cur := [], row := st.row ++ [st.cur], rows := st.rows }
      else if c = '\n' then
        { mode := .expectQuote, cur := [], row := [],
          rows := st.rows ++ [st.row ++ [st.cur]] }
      else { st with mode := .stuck }

/-- Close the final cell and row at end of input. -/
def csvFinish (st : CsvState) : Option (List (List (List Char))) :=
  match st.mode with
  | .afterQuote => some (st.rows ++ [st.row ++ [st.cur]])
  | _ => none

/-- Parse a fully-quoted CSV text into its rows of unescaped cells. -/
def parseCSV (input : List Char) : Option (List (List (List Char))) :=
  csvFinish (input.foldl csvStep ⟨.expectQuote, [], [], []⟩)

/-! ## Batch job orchestrator (src/components/metadata-display.tsx)

`BatchProcessingDashboard` keeps its state in React hooks: the `jobs`
array, the `activeJobId`, and the `processingController` ref (an
`AbortController` or `null`).  Every mutation is a `setJobs` functional
update that rewrites the whole array; the embedding mirrors each update
lambda verbatim and collects the sequence of states it produces.

`startJob` is an `async` function: all code between two `await`s runs
atomically, and the only suspension point is the `fetch` call per file.
The environment decides, per file index, how that fetch resolves:
successfully, with an HTTP error, with a network error, or rejected with
`AbortError` because the user invoked `pauseJob` while it was in flight.
The `setInterval` progress ticker fires an environment-chosen number of
times during the fetch.  Timestamps (`Date.now()`) are irrelevant to
every property considered here and are embedded as `0`. -/

/-- `BatchFile.status` (metadata-display.tsx, line 364). -/
inductive FileStatus
  | queued
  | processing
  | completed
  | error
  | paused
  deriving DecidableEq

/-- `BatchJob.status` (line 376). -/
inductive JobStatus
  | idle
  | running
  | paused
  | completed
  | error
  deriving DecidableEq

/-- `BatchFile` (lines 361-370); the `file : File` reference is dropped
(only its name ever matters, and no claim consults it). -/
structure BatchFile where
  id : String
  status : FileStatus
  progress : Nat
  metadata : Option DicomMetadata := none
  error : Option String := none
  processingTime : Option Nat := none
  startTime : Option Nat := none
  deriving DecidableEq

/-- `BatchJob` (lines 372-381). -/
structure BatchJob where
  id : String
  name : String
  files : List BatchFile
  status : JobStatus
  progress : Nat
  startTime : Option Nat := none
  endTime : Option Nat := none
  processingOptions : ProcessingOptions
  deriving DecidableEq

/-- The dashboard's mutable state: the `jobs` array, `activeJobId`, and
the abort flag of `processingController.current` (`none` = the ref is
`null`). -/
structure DashState where
  jobs : List BatchJob
  activeJobId : Option String
  ctrlAborted : Option Bool
  deriving DecidableEq

/-- How the environment resolves one file's `fetch`: `ticks` counts the
200ms progress-interval callbacks that fire while it is in flight. -/
inductive FileEvent
  | ok (ticks : Nat) (metadata : DicomMetadata) (ptime : Nat)
  | httpErr (ticks : Nat) (msg : String)
  | netErr (ticks : Nat)
  | pauseSignal (ticks : Nat)

/-- The tick count of an event. -/
def FileEvent.ticks : FileEvent → Nat
  | .ok t _ _ => t
  | .httpErr t _ => t
  | .netErr t => t
  | .pauseSignal t => t

/-- `pauseJob` (lines 626-633): abort the current controller (if any),
mark the job `paused`, clear `activeJobId`. -/
def pauseJob (s : DashState) (jobId : String) : DashState where
  jobs := s.jobs.map fun j => if j.id == jobId then { j with status := .paused } else j
  activeJobId := none
  ctrlAborted := s.ctrlAborted.map fun _ => true

/-- The `setJobs` update at lines 462-473: the file entering
`processing`. -/
def applyProcessing (s : DashState) (jobId fileId : String) : DashState :=
  { s with jobs := s.jobs.map fun j =>
      if j.id == jobId then
        { j with files := j.files.map fun f =>
            if f.id == fileId then
              { f with status := .processing, progress := 0, startTime := some 0 }
            else f }
      else j }

/-- One firing of the `setInterval` callback at lines 482-497. -/
def applyTick (s : DashState) (jobId fileId : String) : DashState :=
  { s with jobs := s.jobs.map fun j =>
      if j.id == jobId then
        { j with files := j.files.map fun f =>
            if f.id == fileId && f.status == .processing then
              { f with progress := min (f.progress + 10) 90 }
            else f }
      else j }

/-- The `setJobs` update at lines 512-531: successful completion. -/
def applyCompleted (s : DashState) (jobId fileId : String)
    (metadata : DicomMetadata) (ptime : Nat) : DashState :=
  { s with jobs := s.jobs.map fun j =>
      if j.id == jobId then
        { j with files := j.files.map fun f =>
            if f.id == fileId then
              { f with status := .completed, progress := 100,
                       metadata := some metadata, processingTime := some ptime }
            else f }
      else j }

/-- The `setJobs` updates at lines 536-554 and 571-589: the file failed
(HTTP error body or network error). -/
def applyErrored (s : DashState) (jobId fileId msg : String) : DashState :=
  { s with jobs := s.jobs.map fun j =>
      if j.id == jobId then
        { j with files := j.files.map fun f =>
            if f.id == fileId then
              { f with status := .error, progress := 0, error := some msg }
            else f }
      else j }

/-- The `setJobs` update at lines 558-568: the `AbortError` branch sets
the in-flight file to `paused` with progress 0. -/
def applyPausedFile (s : DashState) (jobId fileId : String) : DashState :=
  { s with jobs := s.jobs.map fun j =>
      if j.id == jobId then
        { j with files := j.files.map fun f =>
            if f.id == fileId then { f with status := .paused, progress := 0 } else f }
      else j }

/-- `f.status === "completed" || f.status === "error"` (line 596). -/
def isTerminal (f : BatchFile) : Bool :=
  f.status == .completed || f.status == .error

/-- `Math.round((completedFiles / totalFiles) * 100)` on exact rationals
(all values arising here are exactly representable, and JavaScript
`Math.round` rounds halves up): `⌊100 c / t + 1 / 2⌋`. -/
def jsRound100 (c t : Nat) : Nat := (200 * c + t) / (2 * t)

/-- The per-file job-progress update at lines 593-601.  Crucially, the
source reads `jobs.find((j) => j.id === jobId)` from the `jobs` binding
captured when `startJob` was invoked — the stale render-time snapshot
`stale`, not the current state. -/
def applyProgressUpdate (s : DashState) (jobId : String)
    (stale : List BatchJob) : DashState :=
  match stale.find? fun j => j.id == jobId with
  | none => s
  | some updatedJob =>
      let completedFiles := (updatedJob.files.filter isTerminal).length
      let totalFiles := updatedJob.files.length
      let jobProgress := jsRound100 completedFiles totalFiles
      { s with jobs := s.jobs.map fun j =>
          if j.id == jobId then { j with progress := jobProgress } else j }

/-- The states produced by `ticks` firings of the progress interval. -/
def tickTrace (jobId fileId : String) : Nat → DashState → List DashState
  | 0, _ => []
  | n + 1, s =>
      let s1 := applyTick s jobId fileId
      s1 :: tickTrace jobId fileId n s1

/-- The `for` loop of `startJob` (lines 454-602) over the snapshot of
queued/paused files, emitting every intermediate state.  The loop `break`s
when the abort flag of the current controller is observed set. -/
def runFiles (jobId : String) (stale : List BatchJob) (env : Nat → FileEvent) :
    List BatchFile → Nat → DashState → List DashState
  | [], _, _ => []
  | file :: rest, i, s =>
      if s.ctrlAborted == some true then []
      else
        let s1 := applyProcessing s jobId file.id
        let tks := tickTrace jobId file.id (env i).ticks s1
        let s2 := tks.getLastD s1
        let eventTrace : List DashState :=
          match env i with
          | .ok _ md t => [applyCompleted s2 jobId file.id md t]
          | .httpErr _ msg => [applyErrored s2 jobId file.id msg]
          | .netErr _ => [applyErrored s2 jobId file.id "Network error"]
          | .pauseSignal _ =>
              let sp := pauseJob s2 jobId
              [sp, applyPausedFile sp jobId file.id]
        let s3 := eventTrace.getLastD s2
        let s4 := applyProgressUpdate s3 jobId stale
        let progTrace : List DashState :=
          match stale.find? fun j => j.id == jobId with
          | none => []
          | some _ => [s4]
        s1 :: tks ++ eventTrace ++ progTrace ++ runFiles jobId stale env rest (i + 1) s4

/-- `startJob` (lines 441-624), as the sequence of states it produces.
An empty trace means the call returned without touching the state (the
guard at line 443).  After the loop the job is unconditionally marked
`completed` with progress 100 (lines 604-616), and the `finally` block
clears `activeJobId` and the controller ref. -/
def startJobTrace (s0 : DashState) (jobId : String) (env : Nat → FileEvent) :
    List DashState :=
  match s0.jobs.find? fun j => j.id == jobId with
  | none => []
  | some job =>
      if job.status == .running then []
      else
        let sA : DashState :=
          { jobs := s0.jobs, activeJobId := some jobId, ctrlAborted := some false }
        let sB : DashState :=
          { sA with jobs := sA.jobs.map fun j =>
              if j.id == jobId then { j with status := .running, startTime := some 0 }
              else j }
        let queuedFiles := job.files.filter fun f =>
          f.status == .queued || f.status == .paused
        let body := runFiles jobId s0.jobs env queuedFiles 0 sB
        let sEnd := body.getLastD sB
        let sC : DashState :=
          { sEnd with jobs := sEnd.jobs.map fun j =>
              if j.id == jobId then
                { j with status := .completed, endTime := some 0, progress := 100 }
              else j }
        let sD : DashState := { sC with activeJobId := none, ctrlAborted := none }
        sA :: sB :: (body ++ [sC, sD])

/-- The state in which a `startJob` call leaves the dashboard. -/
def startJobFinal (s0 : DashState) (jobId : String) (env : Nat → FileEvent) :
    DashState :=
  (startJobTrace s0 jobId env).getLastD s0

/-! ## Concrete fixtures used by witnesses and counterexamples -/

/-- Default processing options (anonymization off). -/
def optsNone : ProcessingOptions :=
  { anonymize := false, anonymize_mode := .pseudonymize,
    remove_private_tags := false, output_formats := ["json"] }

/-- Options with anonymization on, `remove` mode, salt `"A"`. -/
def optsRemoveA : ProcessingOptions :=
  { anonymize := true, anonymize_mode := .remove, anonymize_salt := some "A",
    remove_private_tags := false, output_formats := ["json"] }

/-- Options with anonymization on, `remove` mode, salt `"B"`. -/
def optsRemoveB : ProcessingOptions :=
  { optsRemoveA with anonymize_salt := some "B" }

/-- Options identical to `optsRemoveA` except for `pseudonymize` mode. -/
def optsPseudoA : ProcessingOptions :=
  { optsRemoveA with anonymize_mode := .pseudonymize }

/-- A fixed extraction environment. -/
def envFixed : ExtractEnv :=
  ⟨"2025-01-01T00:00:00.000Z", "1.2.840.10008.1", "1.2.840.10008.2"⟩

/-- A concrete metadata record, as a fetch result. -/
def mdSample : DicomMetadata := mockMetadata "scan.dcm" optsNone envFixed

/-- A freshly queued batch file. -/
def mkQueued (i : String) : BatchFile :=
  { id := i, status := .queued, progress := 0 }

/-- Environment in which every fetch succeeds immediately. -/
def envAllOk : Nat → FileEvent := fun _ => .ok 0 mdSample 1

/-- A three-file idle job, for the pause scenario. -/
def sPauseScen : DashState :=
  ⟨[{ id := "A", name := "job", files := [mkQueued "f1", mkQueued "f2", mkQueued "f3"],
      status := .idle, progress := 0, processingOptions := optsNone }], none, none⟩

/-- Environment for the pause scenario: file 1 succeeds, the user
invokes `pauseJob` while file 2's fetch is in flight. -/
def envPauseScen : Nat → FileEvent :=
  fun i => if i == 0 then .ok 0 mdSample 1 else .pauseSignal 0

/-- A two-file idle job, for the progress-invariant scenario. -/
def sTwoFiles : DashState :=
  ⟨[{ id := "A", name := "job", files := [mkQueued "f1", mkQueued "f2"],
      status := .idle, progress := 0, processingOptions := optsNone }], none, none⟩

/-- Job `A` running (its file mid-flight) while job `B` sits idle with
one queued file. -/
def jobRunningA : BatchJob :=
  { id := "A", name := "ja",
    files := [{ id := "fa", status := .processing, progress := 30, startTime := some 0 }],
    status := .running, progress := 0, startTime := some 0,
    processingOptions := optsNone }

/-- The idle job `B` of the two-job fixture. -/
def jobIdleB : BatchJob :=
  { id := "B", name := "jb", files := [mkQueued "fb"], status := .idle,
    progress := 0, processingOptions := optsNone }

/-- The two-job dashboard state with `A` active. -/
def sTwoJobs : DashState := ⟨[jobRunningA, jobIdleB], some "A", some false⟩

/-- A state holding one running job whose single file is already
`completed`. -/
def fileDone : BatchFile := { id := "f1", status := .completed, progress := 100 }

/-- The job owning `fileDone`. -/
def jobDone : BatchJob :=
  { id := "A", name := "job", files := [fileDone], status := .running,
    progress := 100, processingOptions := optsNone }

/-- The dashboard state owning `jobDone`. -/
def stateDone : DashState := ⟨[jobDone], some "A", some false⟩

/-! ## Pseudonymization lemmas -/

/-- `generatePseudonym` unfolded. -/
lemma generatePseudonym_def (v : String) (s : Option String) :
    generatePseudonym v s =
      "anon_" ++ String.mk ((base64Encode (strBytes (v ++ actualSaltOf s))).take 12) :=
  rfl

/-- `base64Encode` on a list with at least three bytes. -/
lemma base64Encode_cons3 (a b c : Nat) (l : List Nat) :
    base64Encode (a :: b :: c :: l) =
      b64Char (a / 4) :: b64Char (a % 4 * 16 + b / 16) ::
      b64Char (b % 16 * 4 + c / 64) :: b64Char (c % 64) :: base64Encode l :=
  rfl

/-- Taking `m + 4` elements past an explicit four-element head. -/
lemma take_add_four {α : Type} (x1 x2 x3 x4 : α) (r : List α) (m : Nat) :
    (x1 :: x2 :: x3 :: x4 :: r).take (m + 4) = x1 :: x2 :: x3 :: x4 :: r.take m :=
  rfl

/-- Taking `m + 3` elements past an explicit three-element head. -/
lemma take_add_three {α : Type} (x1 x2 x3 : α) (r : List α) (m : Nat) :
    (x1 :: x2 :: x3 :: r).take (m + 3) = x1 :: x2 :: x3 :: r.take m :=
  rfl

/-- The first `4 * n` base64 characters are determined by the first
`3 * n` input bytes. -/
lemma base64Encode_take :
    ∀ (n : Nat) (l : List Nat), 3 * n ≤ l.length →
      (base64Encode l).take (4 * n) = base64Encode (l.take (3 * n)) := by
  intro n
  induction n with
  | zero => intro l _; simp [base64Encode]
  | succ k ih =>
    intro l h
    match l with
    | [] => simp at h
    | [a] => simp at h; omega
    | [a, b] => simp at h; omega
    | a :: b :: c :: t =>
      have ht : 3 * k ≤ t.length := by
        simp [List.length_cons] at h; omega
      rw [Nat.mul_succ, Nat.mul_succ, take_add_three, base64Encode_cons3,
        base64Encode_cons3, take_add_four, ih t ht]

/-- The pseudonym of a value of length at least 9 does not depend on the
salt: the 12 retained base64 characters encode only the first 9 bytes of
`value ++ salt`, which all come from the value. -/
lemma generatePseudonym_salt_independent (v : String) (s1 s2 : Option String)
    (h : 9 ≤ v.length) : generatePseudonym v s1 = generatePseudonym v s2 := by
  rw [generatePseudonym_def, generatePseudonym_def]
  have key : ∀ w : String,
      (base64Encode (strBytes (v ++ w))).take 12 = base64Encode ((strBytes v).take 9) := by
    intro w
    have hb : strBytes (v ++ w) = strBytes v ++ strBytes w := by
      simp [strBytes, String.data_append]
    have hlen9 : 9 ≤ (strBytes v).length := by
      have hv : (strBytes v).length = v.data.length := by
        simp [strBytes]
      rw [hv]; exact h
    have hlen : 9 ≤ (strBytes (v ++ w)).length := by
      rw [hb, List.length_append]; omega
    have h12 := base64Encode_take 3 (strBytes (v ++ w)) (by simpa using hlen)
    norm_num at h12
    rw [h12, hb, List.take_append_of_le_length hlen9]
  rw [key, key]

/-! ## Theorems for the claims on pseudonymization -/

/-- C4 counterexample: the claim that distinct salts always give
distinct pseudonyms is false — salts `"a"` and `"b"` give the same
pseudonym for the value `"PATIENT_001"`. -/
theorem c4_distinct_salts_same_pseudonym :
    generatePseudonym "PATIENT_001" (some "a") = generatePseudonym "PATIENT_001" (some "b") ∧
      ("a" : String) ≠ "b" := by
  exact ⟨by decide, by decide⟩

/-- C4 (amended): pseudonymization is deterministic — repeated calls on
the same value and salt agree — but it is not salt-sensitive: the digest
truncation keeps only the first 9 bytes of `value ++ salt`, so for any
value of length at least 9 every salt yields the same pseudonym. -/
theorem c4_pseudonym_deterministic_first9 :
    (∀ (v : String) (s : Option String), generatePseudonym v s = generatePseudonym v s) ∧
      ∀ (v : String) (s1 s2 : Option String), 9 ≤ v.length →
        generatePseudonym v s1 = generatePseudonym v s2 :=
  ⟨fun _ _ => rfl, generatePseudonym_salt_independent⟩

/-- C4 witness: the amended theorem applied at value `"PATIENT_001"`
and salts `"x"`, `"y"`. -/
theorem c4_pseudonym_deterministic_first9_witness :
    generatePseudonym "PATIENT_001" (some "x") = generatePseudonym "PATIENT_001" (some "y") :=
  c4_pseudonym_deterministic_first9.2 "PATIENT_001" (some "x") (some "y") (by decide)

/-- C10: an explicitly supplied empty-string salt is indistinguishable
from an absent salt, and both fall back to `"default_salt"`, because the
JavaScript `salt || "default_salt"` treats `""` as falsy. -/
theorem c10_empty_salt_is_default (v : String) :
    generatePseudonym v (some "") = generatePseudonym v none ∧
      generatePseudonym v none = generatePseudonym v (some "default_salt") := by
  have e1 : actualSaltOf (some "") = actualSaltOf none := by decide
  have e2 : actualSaltOf none = actualSaltOf (some "default_salt") := by decide
  constructor
  · rw [generatePseudonym_def, generatePseudonym_def, e1]
  · rw [generatePseudonym_def, generatePseudonym_def, e2]

/-! ## Theorems for the claims on metadata extraction -/

/-- C6: in every record that `processDicomFile` produces,
`phi_removed = "YES"` exactly when anonymization was requested;
`phi_flags` is empty whenever anonymization was applied; and `urgent`
holds exactly when `urgent_reasons` is non-empty. -/
theorem c6_metadata_invariants (fileName : String) (options : ProcessingOptions)
    (env : ExtractEnv) :
    ((mockMetadata fileName options env).phi_removed = "YES" ↔ options.anonymize = true) ∧
      (options.anonymize = true → (mockMetadata fileName options env).phi_flags = []) ∧
      ((mockMetadata fileName options env).urgent = true ↔
        (mockMetadata fileName options env).urgent_reasons ≠ []) := by
  refine ⟨?_, ?_, ?_⟩
  · cases hb : options.anonymize <;> simp [mockMetadata, hb]
  · intro hb; simp [mockMetadata, hb]
  · cases hu : checkUrgency (getModalityFromFileName fileName) "Routine examination" <;>
      simp [mockMetadata, hu]

/-- C6 witness: the invariants instantiated on a concrete anonymized
extraction. -/
theorem c6_metadata_invariants_witness :
    (mockMetadata "scan.dcm" optsPseudoA envFixed).phi_flags = [] :=
  (c6_metadata_invariants "scan.dcm" optsPseudoA envFixed).2.1 rfl

/-! ## Theorems for the claims on the orchestrator guard and pause -/

/-- C1 counterexample: with job `A` running and job `B` idle, invoking
`startJob` on `B` is not rejected — `B`'s status changes from `idle` to
`completed` and `B`'s file is processed to `completed`. -/
theorem c1_second_job_not_rejected :
    ((sTwoJobs.jobs.find? fun j => j.id == "B").map fun j => j.status) = some .idle ∧
      ((sTwoJobs.jobs.find? fun j => j.id == "A").map fun j => j.status) = some .running ∧
      (((startJobFinal sTwoJobs "B" envAllOk).jobs.find? fun j => j.id == "B").map
        fun j => j.status) = some .completed ∧
      (((startJobFinal sTwoJobs "B" envAllOk).jobs.find? fun j => j.id == "B").map
        fun j => j.files.map fun f => f.status) = some [.completed] := by
  exact ⟨by decide, by decide, by decide, by decide⟩

/-- C1 (amended): `startJob` rejects a call — returning without any
state change — exactly when the target job does not exist or is itself
already `running`; when the target is not running it proceeds (its first
emitted state claims the active-job slot), even if a distinct job is
`running`.  The process-wide one-active-job policy is enforced only by
disabling the start button in the UI, not inside `startJob`. -/
theorem c1_guard_checks_target_only (s : DashState) (jobId : String)
    (env : Nat → FileEvent) :
    ((s.jobs.find? fun j => j.id == jobId) = none →
        startJobTrace s jobId env = [] ∧ startJobFinal s jobId env = s) ∧
      ∀ job, (s.jobs.find? fun j => j.id == jobId) = some job →
        (job.status = .running →
          startJobTrace s jobId env = [] ∧ startJobFinal s jobId env = s) ∧
        (job.status ≠ .running →
          (startJobTrace s jobId env).head? =
            some { jobs := s.jobs, activeJobId := some jobId, ctrlAborted := some false }) := by
  constructor
  · intro hnone
    simp [startJobTrace, startJobFinal, hnone]
  · intro job hfind
    constructor
    · intro hrun
      simp [startJobTrace, startJobFinal, hfind, hrun]
    · intro hnot
      simp [startJobTrace, hfind, hnot]

/-- C1 witness: the amended theorem applied to the two-job fixture —
starting the already-running job `A` is a no-op, while starting the idle
job `B` proceeds. -/
theorem c1_guard_checks_target_only_witness :
    (startJobTrace sTwoJobs "A" envAllOk = [] ∧ startJobFinal sTwoJobs "A" envAllOk = sTwoJobs) ∧
      (startJobTrace sTwoJobs "B" envAllOk).head? =
        some { jobs := sTwoJobs.jobs, activeJobId := some "B", ctrlAborted := some false } :=
  ⟨(((c1_guard_checks_target_only sTwoJobs "A" envAllOk).2 jobRunningA (by decide)).1 rfl),
    (((c1_guard_checks_target_only sTwoJobs "B" envAllOk).2 jobIdleB (by decide)).2 (by decide))⟩

/-- C9: `pauseJob` never touches any file: every job of the paused state
keeps its exact file list, so a file in a terminal state keeps its
status, progress, metadata, and error message. -/
theorem c9_pause_preserves_terminal_files (s : DashState) (jobId : String)
    (job : BatchJob) (f : BatchFile) (hj : job ∈ s.jobs) (hf : f ∈ job.files)
    (_hterm : f.status = .completed ∨ f.status = .error) :
    ∃ job', job' ∈ (pauseJob s jobId).jobs ∧ job'.id = job.id ∧
      job'.files = job.files ∧ f ∈ job'.files := by
  refine ⟨if job.id == jobId then { job with status := .paused } else job, ?_, ?_, ?_, ?_⟩
  · exact List.mem_map_of_mem _ hj
  · by_cases h : job.id == jobId <;> simp [h]
  · by_cases h : job.id == jobId <;> simp [h]
  · by_cases h : job.id == jobId <;> simp [h, hf]

/-- C9 witness: pausing `stateDone` leaves its completed file intact. -/
theorem c9_pause_preserves_terminal_files_witness :
    ∃ job', job' ∈ (pauseJob stateDone "A").jobs ∧ job'.id = jobDone.id ∧
      job'.files = jobDone.files ∧ fileDone ∈ job'.files :=
  c9_pause_preserves_terminal_files stateDone "A" jobDone fileDone
    (by simp [stateDone]) (by simp [jobDone]) (Or.inl rfl)

/-! ## Report aggregation lemmas -/

/-- The sum of the values of a frequency map. -/
def sumVals (m : List (String × Nat)) : Nat := (m.map Prod.snd).sum

/-- `sumVals` over a cons. -/
lemma sumVals_cons (p : String × Nat) (m : List (String × Nat)) :
    sumVals (p :: m) = p.2 + sumVals m := by
  simp [sumVals]

/-- Bumping leaves the key list unchanged when the key is present. -/
lemma map_fst_bump (m : List (String × Nat)) (k : String) :
    (m.map fun p => if p.1 == k then (p.1, p.2 + 1) else p).map Prod.fst =
      m.map Prod.fst := by
  induction m with
  | nil => rfl
  | cons p t ih =>
    simp only [List.map_cons, ih, List.cons.injEq]
    refine ⟨?_, trivial⟩
    split <;> rfl

/-- Bumping is the identity on maps that do not contain the key. -/
lemma map_bump_eq_self (m : List (String × Nat)) (k : String)
    (h : ∀ p ∈ m, (p.1 == k) = false) :
    (m.map fun p => if p.1 == k then (p.1, p.2 + 1) else p) = m := by
  induction m with
  | nil => rfl
  | cons p t ih =>
    have hp := h p (List.mem_cons_self p t)
    have ht : ∀ q ∈ t, (q.1 == k) = false := fun q hq => h q (List.mem_cons_of_mem p hq)
    simp only [List.map_cons, ih ht, List.cons.injEq]
    exact ⟨by rw [if_neg (by simp [hp])], trivial⟩

/-- With unique keys, bumping a present key raises the value sum by
exactly one. -/
lemma sum_map_bump (m : List (String × Nat)) (k : String)
    (hnd : (m.map Prod.fst).Nodup) (hany : (m.any fun p => p.1 == k) = true) :
    sumVals (m.map fun p => if p.1 == k then (p.1, p.2 + 1) else p) = sumVals m + 1 := by
  induction m with
  | nil => simp at hany
  | cons p t ih =>
    rw [List.map_cons, List.nodup_cons] at hnd
    obtain ⟨hpt, hnt⟩ := hnd
    by_cases hpk : (p.1 == k) = true
    · have hk : p.1 = k := by simpa using hpk
      have htf : ∀ q ∈ t, (q.1 == k) = false := by
        intro q hq
        by_contra hcon
        have hqk : q.1 = k := by simpa using Bool.of_not_eq_false hcon
        exact hpt (hk ▸ hqk ▸ List.mem_map_of_mem Prod.fst hq)
      simp only [List.map_cons, if_pos hpk, map_bump_eq_self t k htf]
      rw [sumVals_cons, sumVals_cons]
      show p.2 + 1 + sumVals t = p.2 + sumVals t + 1
      omega
    · have hany' : (t.any fun p => p.1 == k) = true := by
        simpa [List.any_cons, hpk] using hany
      simp only [List.map_cons, hpk, if_neg, Bool.not_eq_true] at *
      rw [sumVals_cons, sumVals_cons, ih hnt hany']
      omega

/-- `bumpKey` raises the value sum by one on a unique-key map. -/
lemma bumpKey_sum (m : List (String × Nat)) (k : String)
    (hnd : (m.map Prod.fst).Nodup) : sumVals (bumpKey m k) = sumVals m + 1 := by
  unfold bumpKey
  by_cases hany : (m.any fun p => p.1 == k) = true
  · rw [if_pos hany]
    exact sum_map_bump m k hnd hany
  · rw [if_neg hany]
    simp [sumVals]

/-- `bumpKey` preserves key uniqueness. -/
lemma bumpKey_nodup (m : List (String × Nat)) (k : String)
    (hnd : (m.map Prod.fst).Nodup) : ((bumpKey m k).map Prod.fst).Nodup := by
  unfold bumpKey
  by_cases hany : (m.any fun p => p.1 == k) = true
  · rw [if_pos hany, map_fst_bump]
    exact hnd
  · rw [if_neg hany, List.map_append, List.nodup_append]
    refine ⟨hnd, by simp, ?_⟩
    intro a ha hk
    simp only [List.map_cons, List.map_nil, List.mem_singleton] at hk
    subst hk
    obtain ⟨p, hp, hpa⟩ := List.mem_map.mp ha
    have : (p.1 == a) = true := by simp [hpa]
    exact hany (List.any_eq_true.mpr ⟨p, hp, this⟩)

/-- Folding `bumpKey` over a key list preserves uniqueness and adds the
list length to the value sum. -/
lemma foldl_bumpKey_props :
    ∀ (ks : List String) (m : List (String × Nat)), (m.map Prod.fst).Nodup →
      ((ks.foldl bumpKey m).map Prod.fst).Nodup ∧
        sumVals (ks.foldl bumpKey m) = sumVals m + ks.length := by
  intro ks
  induction ks with
  | nil => intro m h; exact ⟨h, by simp⟩
  | cons k t ih =>
    intro m h
    obtain ⟨hn, hs⟩ := ih (bumpKey m k) (bumpKey_nodup m k h)
    refine ⟨by simpa [List.foldl_cons] using hn, ?_⟩
    rw [List.foldl_cons, hs, bumpKey_sum m k h, List.length_cons]
    omega

/-- The `modalities` component of the summary fold. -/
lemma foldl_summaryStep_modalities :
    ∀ (l : List ProcessedFileData) (acc : SummaryAcc),
      (l.foldl summaryStep acc).modalities =
        (l.map fun f => f.metadata.modality).foldl bumpKey acc.modalities := by
  intro l
  induction l with
  | nil => intro acc; rfl
  | cons f t ih => intro acc; simp [List.foldl_cons, ih, summaryStep]

/-- The `bodyParts` component of the summary fold. -/
lemma foldl_summaryStep_bodyParts :
    ∀ (l : List ProcessedFileData) (acc : SummaryAcc),
      (l.foldl summaryStep acc).bodyParts =
        (l.map fun f => f.metadata.body_part_examined).foldl bumpKey acc.bodyParts := by
  intro l
  induction l with
  | nil => intro acc; rfl
  | cons f t ih => intro acc; simp [List.foldl_cons, ih, summaryStep]

/-- The `manufacturers` component of the summary fold. -/
lemma foldl_summaryStep_manufacturers :
    ∀ (l : List ProcessedFileData) (acc : SummaryAcc),
      (l.foldl summaryStep acc).manufacturers =
        (l.map fun f => f.metadata.manufacturer).foldl bumpKey acc.manufacturers := by
  intro l
  induction l with
  | nil => intro acc; rfl
  | cons f t ih => intro acc; simp [List.foldl_cons, ih, summaryStep]

/-- Every file is counted as exactly one of success / error. -/
lemma filter_status_partition (files : List ProcessedFileData) :
    (files.filter fun f => f.status == POutcome.success).length +
      (files.filter fun f => f.status == POutcome.error).length = files.length := by
  induction files with
  | nil => rfl
  | cons f t ih =>
    cases hs : f.status <;> simp [List.filter_cons, hs] <;> omega

/-- C7: in every summary the success and failure counts add up to the
total, and each of the three frequency maps has value sum equal to the
success count. -/
theorem c7_summary_totals (files : List ProcessedFileData) :
    (generateSummary files).successfulFiles + (generateSummary files).failedFiles =
        (generateSummary files).totalFiles ∧
      sumVals (generateSummary files).modalities = (generateSummary files).successfulFiles ∧
      sumVals (generateSummary files).bodyParts = (generateSummary files).successfulFiles ∧
      sumVals (generateSummary files).manufacturers = (generateSummary files).successfulFiles := by
  refine ⟨?_, ?_, ?_, ?_⟩
  · simpa [generateSummary] using filter_status_partition files
  · rw [show (generateSummary files).modalities =
        ((files.filter fun f => f.status == POutcome.success).foldl summaryStep
          ⟨[], [], [], 0, 0, 0⟩).modalities from rfl,
      foldl_summaryStep_modalities]
    have h := (foldl_bumpKey_props
      ((files.filter fun f => f.status == POutcome.success).map fun f => f.metadata.modality)
      [] (by simp)).2
    rw [h]
    simp [sumVals, generateSummary]
  · rw [show (generateSummary files).bodyParts =
        ((files.filter fun f => f.status == POutcome.success).foldl summaryStep
          ⟨[], [], [], 0, 0, 0⟩).bodyParts from rfl,
      foldl_summaryStep_bodyParts]
    have h := (foldl_bumpKey_props
      ((files.filter fun f => f.status == POutcome.success).map
        fun f => f.metadata.body_part_examined) [] (by simp)).2
    rw [h]
    simp [sumVals, generateSummary]
  · rw [show (generateSummary files).manufacturers =
        ((files.filter fun f => f.status == POutcome.success).foldl summaryStep
          ⟨[], [], [], 0, 0, 0⟩).manufacturers from rfl,
      foldl_summaryStep_manufacturers]
    have h := (foldl_bumpKey_props
      ((files.filter fun f => f.status == POutcome.success).map
        fun f => f.metadata.manufacturer) [] (by simp)).2
    rw [h]
    simp [sumVals, generateSummary]

/-! ## CSV round-trip lemmas -/

/-- `joinSep` on a list with at least two elements. -/
lemma joinSep_cons_of_ne (sep : Char) (x : List Char) {l : List (List Char)}
    (h : l ≠ []) : joinSep sep (x :: l) = x ++ sep :: joinSep sep l := by
  cases l with
  | nil => exact absurd rfl h
  | cons y t => rfl

/-- Feeding an escaped cell body to the reader in `inCell` mode appends
the unescaped body to the current cell. -/
lemma run_escChars :
    ∀ (s cur : List Char) (row : List (List Char)) (rows : List (List (List Char))),
      (escChars s).foldl csvStep ⟨.inCell, cur, row, rows⟩ = ⟨.inCell, cur ++ s, row, rows⟩ := by
  intro s
  induction s with
  | nil => intro cur row rows; simp [escChars]
  | cons c t ih =>
    intro cur row rows
    by_cases hc : c = '"'
    · subst hc
      have he : escChars ('"' :: t) = '"' :: '"' :: escChars t := by
        simp [escChars]
      rw [he, List.foldl_cons, List.foldl_cons]
      have h1 : csvStep ⟨.inCell, cur, row, rows⟩ '"' = ⟨.afterQuote, cur, row, rows⟩ := rfl
      have h2 : csvStep ⟨.afterQuote, cur, row, rows⟩ '"' =
          ⟨.inCell, cur ++ ['"'], row, rows⟩ := rfl
      rw [h1, h2, ih]
      simp
    · have he : escChars (c :: t) = c :: escChars t := by
        simp [escChars, hc]
      rw [he, List.foldl_cons]
      have h1 : csvStep ⟨.inCell, cur, row, rows⟩ c = ⟨.inCell, cur ++ [c], row, rows⟩ := by
        show (if c = '"' then _ else _) = _
        rw [if_neg hc]
      rw [h1, ih]
      simp

/-- Feeding one rendered cell to the reader in `expectQuote` mode leaves
it in `afterQuote` mode holding the unescaped cell. -/
lemma run_renderCell (s : List Char) (row : List (List Char))
    (rows : List (List (List Char))) :
    (renderCell s).foldl csvStep ⟨.expectQuote, [], row, rows⟩ =
      ⟨.afterQuote, s, row, rows⟩ := by
  show ((('"' :: escChars s) ++ ['"']).foldl csvStep _) = _
  rw [List.foldl_append]
  rw [show ('"' :: escChars s).foldl csvStep ⟨.expectQuote, [], row, rows⟩ =
    (escChars s).foldl csvStep ⟨.inCell, [], row, rows⟩ from rfl]
  rw [run_escChars]
  rfl

/-- Feeding one rendered row to the reader accumulates its cells, ending
in `afterQuote` mode on the last cell. -/
lemma run_renderRow :
    ∀ (pre : List (List Char)) (lastc : List Char) (row : List (List Char))
      (rows : List (List (List Char))),
      (renderRow (pre ++ [lastc])).foldl csvStep ⟨.expectQuote, [], row, rows⟩ =
        ⟨.afterQuote, lastc, row ++ pre, rows⟩ := by
  intro pre
  induction pre with
  | nil =>
    intro lastc row rows
    have hr : renderRow ([] ++ [lastc]) = renderCell lastc := by
      simp [renderRow, joinSep]
    rw [hr, run_renderCell]
    simp
  | cons c pre' ih =>
    intro lastc row rows
    have hmap : ((c :: pre') ++ [lastc]).map renderCell =
        renderCell c :: ((pre' ++ [lastc]).map renderCell) := by
      simp
    have hne : (pre' ++ [lastc]).map renderCell ≠ [] := by
      simp
    rw [renderRow, hmap, joinSep_cons_of_ne ',' (renderCell c) hne, List.foldl_append,
      run_renderCell, List.foldl_cons]
    have hstep : csvStep ⟨.afterQuote, c, row, rows⟩ ',' =
        ⟨.expectQuote, [], row ++ [c], rows⟩ := rfl
    rw [hstep]
    have := ih lastc (row ++ [c]) rows
    rw [renderRow] at this
    rw [this]
    simp

/-- Feeding a whole rendered CSV text (of non-empty rows) to the reader
and closing it recovers exactly the original rows. -/
lemma run_renderCSV :
    ∀ (rs : List (List (List Char))) (rowsAcc : List (List (List Char))),
      (∀ r ∈ rs, r ≠ []) → rs ≠ [] →
      csvFinish ((joinSep '\n' (rs.map renderRow)).foldl csvStep
        ⟨.expectQuote, [], [], rowsAcc⟩) = some (rowsAcc ++ rs) := by
  intro rs
  induction rs with
  | nil => intro rowsAcc _ hne; exact absurd rfl hne
  | cons r rest ih =>
    intro rowsAcc hall hne
    have hr : r ≠ [] := hall r (List.mem_cons_self r rest)
    obtain ⟨pre, lastc, hdecomp⟩ : ∃ pre lastc, r = pre ++ [lastc] :=
      ⟨r.dropLast, r.getLast hr, (List.dropLast_append_getLast hr).symm⟩
    cases rest with
    | nil =>
      have hone : joinSep '\n' ([r].map renderRow) = renderRow r := rfl
      rw [hone, hdecomp, run_renderRow]
      simp [csvFinish]
    | cons r2 t =>
      have hmap : ((r :: r2 :: t).map renderRow) =
          renderRow r :: ((r2 :: t).map renderRow) := rfl
      rw [hmap, joinSep_cons_of_ne '\n' (renderRow r) (by simp), List.foldl_append,
        hdecomp, run_renderRow, List.foldl_cons]
      have hstep : csvStep ⟨.afterQuote, lastc, [] ++ pre, rowsAcc⟩ '\n' =
          ⟨.expectQuote, [], [], rowsAcc ++ [([] ++ pre) ++ [lastc]]⟩ := rfl
      rw [hstep]
      have hall' : ∀ q ∈ r2 :: t, q ≠ [] := fun q hq => hall q (List.mem_cons_of_mem r hq)
      rw [ih (rowsAcc ++ [[] ++ pre ++ [lastc]]) hall' (by simp)]
      simp [hdecomp]

/-- C8: the CSV text of a report parses back to exactly one header row
plus one row per file outcome, each cell holding (after unescaping) the
source value from which it was rendered. -/
theorem c8_csv_roundtrip (data : ReportData) :
    parseCSV (generateCSVReport data).data =
        some ((csvHeaders :: data.files.map csvRow).map fun row => row.map String.data) ∧
      ((csvHeaders :: data.files.map csvRow).map fun row => row.map String.data).length =
        data.files.length + 1 := by
  constructor
  · have hdata : (generateCSVReport data).data =
        renderCSV ((csvHeaders :: data.files.map csvRow).map fun row =>
          row.map String.data) := rfl
    rw [hdata]
    have hall : ∀ r ∈ (csvHeaders :: data.files.map csvRow).map
        (fun row => row.map String.data), r ≠ [] := by
      intro r hr
      obtain ⟨row, hrow, hre⟩ := List.mem_map.mp hr
      subst hre
      rcases List.mem_cons.mp hrow with hrow | hrow
      · subst hrow; simp [csvHeaders]
      · obtain ⟨f, _, hfe⟩ := List.mem_map.mp hrow
        subst hfe
        simp [csvRow]
    have h := run_renderCSV ((csvHeaders :: data.files.map csvRow).map fun row =>
      row.map String.data) [] hall (by simp)
    simpa [parseCSV, renderCSV] using h
  · simp

/-! ## Evaluation theorems for the orchestrator bugs -/

/-- C2: in the three-file pause scenario the per-file states are as the
claim says — file 1 `completed`, file 2 `paused` with progress 0, file 3
`queued`, and the job is transiently `paused` (trace index 6) — but once
the aborted `startJob` call unwinds, its unconditional completion block
leaves the job `completed` with progress 100, not `paused`. -/
theorem c2_pause_scenario_leaves_job_completed :
    ((startJobFinal sPauseScen "A" envPauseScen).jobs.map fun j => (j.status, j.progress)) =
        [(JobStatus.completed, 100)] ∧
      ((startJobFinal sPauseScen "A" envPauseScen).jobs.map fun j =>
          j.files.map fun f => (f.status, f.progress)) =
        [[(FileStatus.completed, 100), (FileStatus.paused, 0), (FileStatus.queued, 0)]] ∧
      (((startJobTrace sPauseScen "A" envPauseScen).get? 6).map fun st =>
          st.jobs.map fun j => j.status) = some [JobStatus.paused] := by
  exact ⟨by decide, by decide, by decide⟩

/-- C2 continued: a subsequent `startJob` on the (wrongly `completed`)
job does process the remaining paused and queued files, after which all
files are `completed`. -/
theorem c2_resume_processes_remaining_files :
    ((startJobFinal (startJobFinal sPauseScen "A" envPauseScen) "A" envAllOk).jobs.map
        fun j => (j.status, j.files.map fun f => f.status)) =
      [(JobStatus.completed, [FileStatus.completed, FileStatus.completed,
        FileStatus.completed])] := by
  decide

/-- C3: the progress recomputation after a file transition reads the
stale `jobs` snapshot captured when `startJob` began, so after the first
of two files completes the job's progress is set to 0 even though
`round(100 * 1 / 2) = 50`. -/
theorem c3_progress_uses_stale_snapshot :
    jsRound100 1 2 = 50 ∧
      (((startJobTrace sTwoFiles "A" envAllOk).get? 4).map fun st =>
          st.jobs.map fun j => (j.progress, (j.files.filter isTerminal).length,
            j.files.length)) = some [(0, 1, 2)] := by
  exact ⟨by decide, by decide⟩

/-- C5: `processDicomFile` ignores `anonymize_mode` entirely — `remove`
mode produces the same record as `pseudonymize` mode, whose identifying
fields are salt-dependent `anon_` pseudonyms rather than the fixed
`"REDACTED"` marker promised by the settings UI. -/
theorem c5_remove_mode_is_not_redaction :
    mockMetadata "scan.dcm" optsRemoveA envFixed =
        mockMetadata "scan.dcm" optsPseudoA envFixed ∧
      (mockMetadata "scan.dcm" optsRemoveA envFixed).patient_name =
        generatePseudonym "John Doe" (some "A") ∧
      (mockMetadata "scan.dcm" optsRemoveA envFixed).patient_name ≠
        (mockMetadata "scan.dcm" optsRemoveB envFixed).patient_name ∧
      (mockMetadata "scan.dcm" optsRemoveA envFixed).patient_name ≠ "REDACTED" := by
  exact ⟨by decide, by decide, by decide, by decide⟩

end Dicomweb
